import Mathlib

/-!
Formalisation of the dividend-history extraction logic of
`dividend_parser.py` (repository `quantviews/russian_dividends`).

The extraction core (`get_dividend_history`, lines 51-265) is embedded as
executable Lean definitions over `List Char` texts.  The HTML page is
modelled as a list of tables, a table as a list of rows, and a row as the
list of its cells' texts (BeautifulSoup's `.text` of a row is modelled as
the concatenation of its cell texts).  Each regular expression used by the
source is hand-compiled to a scanner that mirrors Python `re.search`
semantics (leftmost match position, greedy quantifiers with backtracking)
for the character classes actually used.  Monetary values are modelled as
rationals (`float` rounding is not modelled); `\d` and `\s` are modelled
over the ASCII range plus the non-breaking space, which covers every
character class occurring in the source texts considered here.
-/

namespace RusDiv

/-- ASCII digit, model of the regex class `\d` on the inputs considered. -/
def isDig (c : Char) : Bool := 48 ≤ c.toNat && c.toNat ≤ 57

/-- Model of Python whitespace (`str.strip` set and the regex class `\s`):
ASCII whitespace plus the no-break space. -/
def isPySpace (c : Char) : Bool :=
  c = ' ' || c = '\t' || c = '\n' || c = '\r' ||
  c = Char.ofNat 0x0b || c = Char.ofNat 0x0c || c = Char.ofNat 0xa0

/-- Model of Python `str.strip()`: remove leading and trailing whitespace. -/
def strip (s : List Char) : List Char :=
  ((s.dropWhile isPySpace).reverse.dropWhile isPySpace).reverse

/-- Does `p` occur as a prefix of `s`?  (Helper for substring search.) -/
def startsWith : List Char → List Char → Bool
  | [], _ => true
  | _ :: _, [] => false
  | p :: ps, c :: cs => p == c && startsWith ps cs

/-- Model of Python `pat in s` (substring containment). -/
def containsSub (pat : List Char) : List Char → Bool
  | [] => startsWith pat []
  | c :: rest => startsWith pat (c :: rest) || containsSub pat rest

/-- Worker for `removeSub`: scan one character at a time; a positive skip
counter means the character belongs to an occurrence already matched and
is consumed without a new match test (occurrences are non-overlapping and
found left to right, as with Python `str.replace`). -/
def removeSubGo (pat : List Char) : List Char → Nat → List Char
  | [], _ => []
  | c :: rest, 0 =>
    if pat ≠ [] ∧ startsWith pat (c :: rest) then
      removeSubGo pat rest (pat.length - 1)
    else c :: removeSubGo pat rest 0
  | _ :: rest, k + 1 => removeSubGo pat rest k

/-- Model of Python `s.replace(pat, '')` (left-to-right, non-overlapping
removal of every occurrence of `pat`).  In the source `pat` is always a
4-character year string, hence non-empty. -/
def removeSub (pat s : List Char) : List Char := removeSubGo pat s 0

/-- Model of `period.replace('\n', ' ')` (line 124 of the source). -/
def nlToSpace (s : List Char) : List Char :=
  s.map fun c => if c = '\n' then ' ' else c

/-- Lower-casing of one character, model of Python `str.lower` on the
ASCII and Cyrillic ranges occurring in the source texts. -/
def charLower (c : Char) : Char :=
  if 65 ≤ c.toNat ∧ c.toNat ≤ 90 then Char.ofNat (c.toNat + 32)
  else if 0x410 ≤ c.toNat ∧ c.toNat ≤ 0x42F then Char.ofNat (c.toNat + 32)
  else if 0x400 ≤ c.toNat ∧ c.toNat ≤ 0x40F then Char.ofNat (c.toNat + 80)
  else c

/-- Model of Python `str.lower()` on the ranges above. -/
def lower (s : List Char) : List Char := s.map charLower

/-- Upper-casing of one character, model of Python `str.upper` on the
ASCII and Cyrillic ranges occurring in ticker symbols. -/
def charUpper (c : Char) : Char :=
  if 97 ≤ c.toNat ∧ c.toNat ≤ 122 then Char.ofNat (c.toNat - 32)
  else if 0x430 ≤ c.toNat ∧ c.toNat ≤ 0x44F then Char.ofNat (c.toNat - 32)
  else if 0x450 ≤ c.toNat ∧ c.toNat ≤ 0x45F then Char.ofNat (c.toNat - 80)
  else c

/-- Model of Python `str.upper()` (used on tickers, lines 71, 242, 258). -/
def upper (s : List Char) : List Char := s.map charUpper

/-- Split a text at `'.'` separators, model of Python `s.split('.')`. -/
def splitDot : List Char → List (List Char)
  | [] => [[]]
  | c :: rest =>
    if c = '.' then [] :: splitDot rest
    else
      match splitDot rest with
      | [] => [[c]]
      | p :: ps => (c :: p) :: ps

/-- Numeric value of a digit string, model of Python `int` on the all-digit
strings produced by the year regexes. -/
def toNatDigits (l : List Char) : Nat :=
  l.foldl (fun n c => 10 * n + (c.toNat - 48)) 0

/-! ### Closing-date search (source lines 126-142)

Hand-compiled scanners for
`re.search(r'закрытие реестра (\d{1,2}\.\d{2}\.\d{4})', period)` and
`re.search(r'(\d{1,2}\.\d{2}\.\d{4})', period)`.  The day quantifier
`\d{1,2}` is greedy, so a two-digit day is tried before a one-digit day. -/

/-- One-digit-day date alternative `\d\.\d{2}\.\d{4}` at the head of `s`. -/
def matchDateAt1 : List Char → Option (List Char)
  | d1 :: '.' :: m1 :: m2 :: '.' :: y1 :: y2 :: y3 :: y4 :: _ =>
    if isDig d1 && isDig m1 && isDig m2 &&
        isDig y1 && isDig y2 && isDig y3 && isDig y4 then
      some [d1, '.', m1, m2, '.', y1, y2, y3, y4]
    else none
  | _ => none

/-- Match `\d{1,2}\.\d{2}\.\d{4}` exactly at the head of `s`, returning the
matched text.  Greedy: the two-digit-day alternative is tried first. -/
def matchDateAt (s : List Char) : Option (List Char) :=
  match s with
  | d1 :: d2 :: '.' :: m1 :: m2 :: '.' :: y1 :: y2 :: y3 :: y4 :: _ =>
    if isDig d1 && isDig d2 && isDig m1 && isDig m2 &&
        isDig y1 && isDig y2 && isDig y3 && isDig y4 then
      some [d1, d2, '.', m1, m2, '.', y1, y2, y3, y4]
    else matchDateAt1 s
  | _ => matchDateAt1 s

/-- Leftmost search for the bare date pattern (line 135). -/
def findDate : List Char → Option (List Char)
  | [] => none
  | c :: rest =>
    match matchDateAt (c :: rest) with
    | some d => some d
    | none => findDate rest

/-- The literal label of the labeled date pattern (line 127). -/
def dateLabel : List Char := "закрытие реестра ".data

/-- Leftmost search for `закрытие реестра (\d{1,2}\.\d{2}\.\d{4})`
(line 127): at each position the literal label must match, immediately
followed by the date group. -/
def findLabeledDate : List Char → Option (List Char)
  | [] => none
  | c :: rest =>
    match
      (if startsWith dateLabel (c :: rest) then
        matchDateAt ((c :: rest).drop dateLabel.length)
      else none) with
    | some d => some d
    | none => findLabeledDate rest

/-- Zero-pad the day of a matched `d.mm.yyyy` text to two digits
(lines 130-132 and 138-140 of the source: `day.zfill(2)`). -/
def zfillDate (d : List Char) : List Char :=
  match splitDot d with
  | [day, mon, yr] =>
    (if day.length = 1 then '0' :: day else day) ++ '.' :: (mon ++ '.' :: yr)
  | _ => d

/-- The closing-date candidate of a (normalized) period text: labeled
pattern first, bare pattern as fallback, day zero-padded (lines 126-142). -/
def resolveClosing (p1 : List Char) : Option (List Char) :=
  match findLabeledDate p1 with
  | some d => some (zfillDate d)
  | none =>
    match findDate p1 with
    | some d => some (zfillDate d)
    | none => none

/-! ### Payment-year search (source lines 144-161) -/

/-- Four digits at the head of `s`, with the rest of the input. -/
def fourDigAt (s : List Char) : Option (List Char × List Char) :=
  match s with
  | a :: b :: c :: d :: rest =>
    if isDig a && isDig b && isDig c && isDig d then some ([a, b, c, d], rest)
    else none
  | _ => none

/-- The `(?:\s|$)` right boundary of the year pattern. -/
def boundaryAfter (s : List Char) : Bool :=
  match s with
  | [] => true
  | c :: _ => isPySpace c

/-- Four digits here followed by whitespace or end of input. -/
def tryYearHere (s : List Char) : Option (List Char) :=
  match fourDigAt s with
  | some (g, rest) => if boundaryAfter rest then some g else none
  | none => none

/-- The `\s`-preceded alternative of the bounded year pattern, tried at
every position from left to right. -/
def findYearBAux : List Char → Option (List Char)
  | [] => none
  | c :: rest =>
    match (if isPySpace c then tryYearHere rest else none) with
    | some g => some g
    | none => findYearBAux rest

/-- Hand-compiled `re.search(r'(?:^|\s)(\d{4})(?:\s|$)', period)`
(line 149): the `^` alternative is tried at position 0, then the `\s`
alternative at each position in order. -/
def findYearB (s : List Char) : Option (List Char) :=
  match tryYearHere s with
  | some g => some g
  | none => findYearBAux s

/-- Hand-compiled `re.search(r'(\d{4})', s)` (lines 152 and 160): the
leftmost run of four digits. -/
def findD4 : List Char → Option (List Char)
  | [] => none
  | c :: rest =>
    match fourDigAt (c :: rest) with
    | some (g, _) => some g
    | none => findD4 rest

/-- The last `'.'`-separated component of a text, model of
`closing_date.split('.')[-1]` (line 146). -/
def lastSplitDot (cd : List Char) : List Char := (splitDot cd).getLastD []

/-- The working text used for the year search: if a closing-date candidate
was found, every occurrence of its year substring is removed (line 146). -/
def workingPeriod (p1 : List Char) : List Char :=
  match resolveClosing p1 with
  | some cd => removeSub (lastSplitDot cd) p1
  | none => p1

/-- The resolved payment year of a row (lines 144-161): bounded year token
in the working text, then any 4-digit run in the working text, then any
4-digit run in the original stripped cell text. -/
def resolveYear (p1 orig : List Char) : Option (List Char) :=
  match findYearB (workingPeriod p1) with
  | some y => some y
  | none =>
    match findD4 (workingPeriod p1) with
    | some y => some y
    | none => findD4 orig

/-! ### Amount search (source lines 177-192 and 205-219)

Hand-compiled scanners for
`re.search(r'(\d{1,3}(?:\s\d{3})*(?:,\d+)?)\s*руб\.', dividend)` and the
suffix-free fallback `re.search(r'(\d{1,3}(?:\s\d{3})*(?:,\d+)?)', dividend)`.
Backtracking matters for the suffixed pattern, so at every start position
all candidate matches of the group are enumerated in the greedy preference
order of the Python engine (later quantifiers backtrack first). -/

/-- Length of the maximal digit run at the head of `s`. -/
def digPrefLen (s : List Char) : Nat := (s.takeWhile isDig).length

/-- Candidate matches of `\d{1,3}` at the head of `s`, greedy order
(longest first), with the corresponding rests. -/
def dTake1to3 (s : List Char) : List (List Char × List Char) :=
  let k := min 3 (digPrefLen s)
  (List.range k).map fun i => (s.take (k - i), s.drop (k - i))

/-- Candidate matches of `(?:\s\d{3})*` at the head of `s`, greedy order
(most iterations first; each iteration is a whitespace plus exactly three
digits and matches in only one way). -/
def starSDDD : List Char → List (List Char × List Char)
  | sp :: a :: b :: c :: rest =>
    if isPySpace sp && isDig a && isDig b && isDig c then
      ((starSDDD rest).map fun p => ([sp, a, b, c] ++ p.1, p.2)) ++
        [([], sp :: a :: b :: c :: rest)]
    else [([], sp :: a :: b :: c :: rest)]
  | s => [([], s)]

/-- Candidate matches of `(?:,\d+)?` at the head of `s`, greedy order:
present with the longest digit run first, absent last. -/
def optComma (s : List Char) : List (List Char × List Char) :=
  match s with
  | ',' :: r =>
    let k := digPrefLen r
    ((List.range k).map fun i => (',' :: r.take (k - i), r.drop (k - i))) ++
      [([], ',' :: r)]
  | _ => [([], s)]

/-- All candidate matches of the amount group
`\d{1,3}(?:\s\d{3})*(?:,\d+)?` at the head of `s`, in the backtracking
order of the Python engine. -/
def amountCands (s : List Char) : List (List Char × List Char) :=
  (dTake1to3 s).flatMap fun p1 =>
    (starSDDD p1.2).flatMap fun p2 =>
      (optComma p2.2).map fun p3 => (p1.1 ++ p2.1 ++ p3.1, p3.2)

/-- Does `\s*руб\.` match at the head of `s`?  Since `'р'` is not a
whitespace character, the greedy `\s*` has exactly one viable extent. -/
def rubAfter (s : List Char) : Bool :=
  startsWith "руб.".data (s.dropWhile isPySpace)

/-- Leftmost search for the amount pattern with the `руб.` suffix
(lines 182 and 209). -/
def findAmountRub : List Char → Option (List Char)
  | [] => none
  | c :: rest =>
    match (amountCands (c :: rest)).find? (fun p => rubAfter p.2) with
    | some p => some p.1
    | none => findAmountRub rest

/-- Leftmost search for the bare amount pattern (lines 185 and 212):
the first (greediest) candidate at the leftmost matching position. -/
def findAmount : List Char → Option (List Char)
  | [] => none
  | c :: rest =>
    match amountCands (c :: rest) with
    | p :: _ => some p.1
    | [] => findAmount rest

/-- The no-dividend sentinel phrase (lines 178 and 205). -/
def sentinel : List Char := "РЕШЕНИЕ ДИВИДЕНДЫ НЕ ВЫПЛАЧИВАТЬ".data

/-- Normalisation of a matched amount (lines 190 and 217):
`.replace(' ', '').replace(',', '.')`. -/
def normalizeNum (g : List Char) : List Char :=
  (g.filter fun c => c ≠ ' ').map fun c => if c = ',' then '.' else c

/-- Numeric value of a normalised amount text, model of Python `float` on
the `digits[.digits]` strings produced by `normalizeNum` (IEEE rounding is
not modelled; values are exact rationals). -/
def parseDec (s : List Char) : ℚ :=
  let ip := s.takeWhile fun c => c ≠ '.'
  let fp := (s.dropWhile fun c => c ≠ '.').drop 1
  mkRat (Int.ofNat (toNatDigits ip * 10 ^ fp.length + toNatDigits fp))
    (10 ^ fp.length)

/-- The amount parser applied to one (stripped) dividend cell, covering
lines 177-192 for the ordinary cell; lines 205-219 repeat the identical
logic verbatim for the preferred cell, so the same definition embeds both.
`none` models the `continue` (row-drop) outcome.  A matched group always
contains a digit, so Python's emptiness test on it never fires. -/
def parseAmount (cell : List Char) : Option ℚ :=
  if containsSub sentinel cell then some 0
  else
    match
      (match findAmountRub cell with
       | some g => some g
       | none => findAmount cell) with
    | some g => some (parseDec (normalizeNum g))
    | none => none

/-! ### Calendar dates and record construction (source lines 194-228) -/

/-- Gregorian leap year. -/
def isLeap (y : Nat) : Bool := (y % 4 = 0 && y % 100 ≠ 0) || y % 400 = 0

/-- Days in a month. -/
def daysInMonth (m y : Nat) : Nat :=
  if m = 2 then (if isLeap y then 29 else 28)
  else if m = 4 ∨ m = 6 ∨ m = 9 ∨ m = 11 then 30
  else 31

/-- Calendar validity of a day/month/year triple. -/
def validDate (d m y : Nat) : Bool :=
  1 ≤ m && m ≤ 12 && 1 ≤ d && d ≤ daysInMonth m y && 1 ≤ y

/-- Conversion of a zero-padded `dd.mm.yyyy` text to a date triple
`(day, month, year)`, model of `pd.to_datetime(closing_date,
format='%d.%m.%Y')` (lines 196 and 223): `none` models the raised
`ValueError` on a calendar-invalid date.  (The finite `pd.Timestamp`
range is not modelled; all dates considered lie well inside it.) -/
def toDate (cd : List Char) : Option (Nat × Nat × Nat) :=
  match splitDot cd with
  | [d, m, y] =>
    let dn := toNatDigits d
    let mn := toNatDigits m
    let yn := toNatDigits y
    if validDate dn mn yn then some (dn, mn, yn) else none
  | _ => none

/-- The `closing_date` field of a record under construction.  `Except`
threads the exception raised by `pd.to_datetime` on an invalid date: that
exception aborts the whole extraction (it is only caught by the handler at
line 263). -/
def dateField : Option (List Char) → Except Unit (Option (Nat × Nat × Nat))
  | none => .ok none
  | some cd =>
    match toDate cd with
    | some t => .ok (some t)
    | none => .error ()

/-- Model of `parse_russian_date` (source lines 37-49): strict
`dd.mm.yyyy` parsing that returns `none` instead of raising on failure.
This helper is defined in the source but never called by
`get_dividend_history`. -/
def parse_russian_date (s : List Char) : Option (Nat × Nat × Nat) :=
  match splitDot s with
  | [d, m, y] =>
    if 1 ≤ d.length && d.length ≤ 2 && d.all isDig &&
        1 ≤ m.length && m.length ≤ 2 && m.all isDig &&
        1 ≤ y.length && y.length ≤ 4 && y.all isDig &&
        validDate (toNatDigits d) (toNatDigits m) (toNatDigits y) then
      some (toNatDigits d, toNatDigits m, toNatDigits y)
    else none
  | _ => none

/-- Period-type keyword test for `half year` (line 168). -/
def halfCond (pl : List Char) : Bool :=
  containsSub "i полугодие".data pl || containsSub "1 полугодие".data pl ||
    containsSub "і полугодие".data pl

/-- Period-type keyword test for `9 months` (line 170). -/
def nineCond (pl : List Char) : Bool :=
  containsSub "9 месяцев".data pl || containsSub "9 мес".data pl

/-- Period-type keyword test for `6 months` (line 172). -/
def sixCond (pl : List Char) : Bool :=
  containsSub "6 месяцев".data pl || containsSub "6 мес".data pl

/-- Period-type keyword test for `3 months` (line 174). -/
def threeCond (pl : List Char) : Bool :=
  containsSub "3 месяца".data pl || containsSub "3 мес".data pl

/-- The period-type classifier (lines 166-175), applied to the lower-cased
working period text; first matching keyword group wins, default
`full year`. -/
def classify (pl : List Char) : List Char :=
  if halfCond pl then "half year".data
  else if nineCond pl then "9 months".data
  else if sixCond pl then "6 months".data
  else if threeCond pl then "3 months".data
  else "full year".data

/-- One extracted dividend record (the columns of the output DataFrame).
`closing_date` is a `(day, month, year)` triple or `none` (`pd.NaT`). -/
structure DivRecord where
  closing_date : Option (Nat × Nat × Nat)
  year : Nat
  period_type : List Char
  dividend_value : ℚ
deriving DecidableEq

/-- The header label of line 122. -/
def hdrStr : List Char := "Период выплаты".data

/-- The total-row token of line 122. -/
def itogoStr : List Char := "ИТОГО".data

/-- Processing of one table row (the loop body, lines 110-228).  Input:
the sticky preferred-column flag and the cell texts; output: the updated
flag and the ordinary / preferred records the row contributes, or an
aborting exception from an invalid closing date.  The flag is set (before
the header test) whenever the row has at least three cells; an unparseable
ordinary amount skips the rest of the iteration (line 192), an unparseable
preferred amount skips only the preferred append (line 219). -/
def processRow (hp : Bool) (cells : List (List Char)) :
    Except Unit (Bool × List DivRecord × List DivRecord) :=
  match cells with
  | c0 :: c1 :: rest =>
    let period0 := strip c0
    let dividend := strip c1
    let hp2 := hp || !rest.isEmpty
    if period0 = hdrStr ∨ containsSub itogoStr period0 = true then
      .ok (hp2, [], [])
    else
      let p1 := strip (nlToSpace period0)
      match resolveYear p1 period0 with
      | none => .ok (hp2, [], [])
      | some ys =>
        let ptype := classify (lower (workingPeriod p1))
        match parseAmount dividend with
        | none => .ok (hp2, [], [])
        | some v =>
          match dateField (resolveClosing p1) with
          | .error e => .error e
          | .ok cd =>
            let r1 : DivRecord := ⟨cd, toNatDigits ys, ptype, v⟩
            match rest with
            | c2 :: _ =>
              if hp2 then
                match parseAmount (strip c2) with
                | none => .ok (hp2, [r1], [])
                | some pv => .ok (hp2, [r1], [⟨cd, toNatDigits ys, ptype, pv⟩])
              else .ok (hp2, [r1], [])
            | [] => .ok (hp2, [r1], [])
  | _ => .ok (hp, [], [])

/-- Processing of all rows of the selected table, threading the sticky
flag and concatenating the per-row contributions; an exception aborts the
whole traversal (nothing extracted so far survives). -/
def processRows : Bool → List (List (List Char)) →
    Except Unit (List DivRecord × List DivRecord)
  | _, [] => .ok ([], [])
  | hp, r :: rs =>
    match processRow hp r with
    | .error e => .error e
    | .ok (hp2, o, p) =>
      match processRows hp2 rs with
      | .error e => .error e
      | .ok (os, ps) => .ok (o ++ os, p ++ ps)

/-! ### Table location, sorting and the top-level extraction
(source lines 66-103 and 230-265) -/

/-- A table row: the list of its cells' texts. -/
abbrev Row := List (List Char)

/-- A table: the list of its rows. -/
abbrev Table := List Row

/-- Text of one row, model of BeautifulSoup's `row.text` (concatenation of
the text of the row's cells). -/
def rowText (r : Row) : List Char := r.foldr (· ++ ·) []

/-- Model of `' '.join(...)`. -/
def joinSpace : List (List Char) → List Char
  | [] => []
  | [x] => x
  | x :: y :: xs => x ++ ' ' :: joinSpace (y :: xs)

/-- The search text of a table (line 97): stripped, lower-cased row texts
joined by single spaces. -/
def tableText (t : Table) : List Char :=
  joinSpace (t.map fun r => lower (strip (rowText r)))

/-- The table-detection keywords (line 98). -/
def keywords : List (List Char) :=
  ["период".data, "дивиденд".data, "выплат".data, "акци".data]

/-- The table locator (lines 87-100): first table with at least one row
whose search text contains any keyword. -/
def findTable : List Table → Option Table
  | [] => none
  | t :: ts =>
    if t.isEmpty then findTable ts
    else if keywords.any (fun k => containsSub k (tableText t)) then some t
    else findTable ts

/-- Descending-year comparison used by `sort_values('year',
ascending=False)`. -/
def yearGE (a b : DivRecord) : Prop := b.year ≤ a.year

instance : DecidableRel yearGE := fun a b => Nat.decLe b.year a.year

instance : IsTotal DivRecord yearGE := ⟨fun a b => Nat.le_total b.year a.year⟩

instance : IsTrans DivRecord yearGE := ⟨fun _ _ _ h1 h2 => Nat.le_trans h2 h1⟩

/-- Model of `df.sort_values('year', ascending=False)` (lines 235 and
252): a comparison sort on the year key, descending.  (pandas's default
sort is unstable, so the order among equal years is unspecified in the
source; only the sortedness and multiset of records are relied upon.) -/
def sortYearDesc (l : List DivRecord) : List DivRecord :=
  List.insertionSort yearGE l

/-- The caller-visible outcome of one extraction: the returned DataFrame
(ordinary records) and the two optional CSV writes (path and content).
Printed diagnostics are not modelled. -/
structure Extraction where
  result : List DivRecord
  csvOrd : Option (List Char × List DivRecord)
  csvPref : Option (List Char × List DivRecord)
deriving DecidableEq

/-- First-match lookup in the ticker mapping, model of `dict.get`. -/
def lookupMap : List (List Char × List Char) → List Char → Option (List Char)
  | [], _ => none
  | (k, v) :: rest, key => if k = key then some v else lookupMap rest key

/-- The CSV path for a ticker (lines 242 and 258):
`data/{ticker.upper()}{suffix}` with suffix `.csv` or `P.csv`. -/
def csvPath (ticker : List Char) (pref : Bool) : List Char :=
  "data/".data ++ upper ticker ++ (if pref then "P.csv".data else ".csv".data)

/-- Top-level model of `get_dividend_history` (lines 51-265).  The fetch
is abstracted: the already-parsed page is an input (the URL built from the
mapping value plays no further role).  Every raised exception — missing
mapping (line 73, also raised when the mapped path is empty, since
`if not url_path` tests falsiness), missing table (line 103), or an
invalid closing date mid-extraction — is caught by the handler at line 263
and yields an empty DataFrame with no CSV written. -/
def get_dividend_history (mappings : List (List Char × List Char))
    (ticker : List Char) (page : List Table) (save_csv : Bool) : Extraction :=
  match lookupMap mappings (upper ticker) with
  | none => ⟨[], none, none⟩
  | some urlPath =>
    if urlPath.isEmpty then ⟨[], none, none⟩
    else
      match findTable page with
      | none => ⟨[], none, none⟩
      | some t =>
        match processRows false t with
        | .error _ => ⟨[], none, none⟩
        | .ok (ords, prefs) =>
          let df := if ords.isEmpty then ords else sortYearDesc ords
          let dfp := if prefs.isEmpty then prefs else sortYearDesc prefs
          ⟨df,
            if save_csv && !df.isEmpty then some (csvPath ticker false, df)
            else none,
            if save_csv && !dfp.isEmpty then some (csvPath ticker true, dfp)
            else none⟩

/-- The preferred-share sequence persisted by an extraction (empty when no
preferred CSV is written). -/
def prefSeq (e : Extraction) : List DivRecord :=
  match e.csvPref with
  | some (_, l) => l
  | none => []

deriving instance DecidableEq for Except

/-! ### Helper lemmas -/

/-- Code points below the surrogate range survive the `Char.ofNat` /
`Char.toNat` round trip. -/
theorem toNat_char_ofNat_lt {n : Nat} (hn : n < 0xD800) :
    (Char.ofNat n).toNat = n := by
  have hv : Nat.isValidChar n := Or.inl hn
  rw [Char.ofNat, dif_pos hv]
  simp only [Char.ofNatAux, Char.toNat, UInt32.toNat, UInt32.ofNatCore,
    BitVec.toNat_ofNatLt]

/-- The code point of an upper-cased character, as a function of the
original code point. -/
theorem charUpper_toNat (c : Char) :
    (charUpper c).toNat =
      (if 97 ≤ c.toNat ∧ c.toNat ≤ 122 then c.toNat - 32
       else if 0x430 ≤ c.toNat ∧ c.toNat ≤ 0x44F then c.toNat - 32
       else if 0x450 ≤ c.toNat ∧ c.toNat ≤ 0x45F then c.toNat - 80
       else c.toNat) := by
  unfold charUpper
  split_ifs with h1 h2 h3
  · exact toNat_char_ofNat_lt (by omega)
  · exact toNat_char_ofNat_lt (by omega)
  · exact toNat_char_ofNat_lt (by omega)
  · rfl

theorem charUpper_idem (c : Char) : charUpper (charUpper c) = charUpper c := by
  have ht := charUpper_toNat c
  conv_lhs => rw [charUpper]
  split_ifs with h1 h2 h3
  · exfalso; rw [ht] at h1; split_ifs at h1 <;> omega
  · exfalso; rw [ht] at h2; split_ifs at h2 <;> omega
  · exfalso; rw [ht] at h3; split_ifs at h3 <;> omega
  · rfl

theorem upper_idem (s : List Char) : upper (upper s) = upper s := by
  simp only [upper, List.map_map]
  exact List.map_congr_left fun a _ => charUpper_idem a

/-! ### Claim C9 -/

/-- C9: extraction is case-insensitive in the ticker argument: the mapping
lookup and both CSV filenames use the upper-cased ticker, so calling the
extraction with any ticker behaves identically to calling it with the
upper-cased form (printed diagnostics, which echo the raw ticker, are not
part of the modelled behaviour). -/
theorem C9_ticker_case_insensitive (ms : List (List Char × List Char))
    (tk : List Char) (page : List Table) (sc : Bool) :
    get_dividend_history ms tk page sc =
      get_dividend_history ms (upper tk) page sc := by
  simp only [get_dividend_history, csvPath, upper_idem]

/-! ### Claim C10 -/

theorem sortYearDesc_sorted (l : List DivRecord) :
    List.Sorted yearGE (sortYearDesc l) :=
  List.sorted_insertionSort yearGE l

/-- C10: the returned ordinary sequence and the persisted preferred-share
sequence are always sorted by year in non-increasing order (`yearGE`);
in particular this holds whenever the extraction returns a non-empty
result, so the caller never receives records in raw row order unless that
order is already year-descending. -/
theorem C10_sorted_desc (ms : List (List Char × List Char)) (tk : List Char)
    (page : List Table) (sc : Bool) :
    List.Sorted yearGE (get_dividend_history ms tk page sc).result ∧
      List.Sorted yearGE (prefSeq (get_dividend_history ms tk page sc)) := by
  have hboth : ∀ l : List DivRecord,
      List.Sorted yearGE (if l.isEmpty then l else sortYearDesc l) := by
    intro l
    split
    · next h => rw [List.isEmpty_iff.mp h]; exact List.sorted_nil
    · exact sortYearDesc_sorted l
  simp only [get_dividend_history]
  split
  · exact ⟨List.sorted_nil, List.sorted_nil⟩
  split
  · exact ⟨List.sorted_nil, List.sorted_nil⟩
  split
  · exact ⟨List.sorted_nil, List.sorted_nil⟩
  split
  · exact ⟨List.sorted_nil, List.sorted_nil⟩
  refine ⟨hboth _, ?_⟩
  split_ifs <;> simp only [prefSeq] <;>
    first
      | exact List.sorted_nil
      | exact sortYearDesc_sorted _
      | (rename_i hfin _
         rw [List.isEmpty_iff.mp hfin]
         exact List.sorted_nil)

/-! ### Claim C2: shape of resolved years and non-negativity of amounts -/

/-- A year string as produced by the year regexes: exactly four digit
characters. -/
def YearStr (g : List Char) : Prop := g.length = 4 ∧ ∀ c ∈ g, isDig c

/-- Every record invariant claimed by the specification: the year comes
from a four-digit token (hence `year < 10000`) and the value is
non-negative. -/
def EmitOK (r : DivRecord) : Prop :=
  (∃ ds, YearStr ds ∧ r.year = toNatDigits ds) ∧ 0 ≤ r.dividend_value

theorem fourDigAt_shape {s : List Char} {g rest : List Char}
    (h : fourDigAt s = some (g, rest)) : YearStr g := by
  unfold fourDigAt at h
  split at h
  · split_ifs at h with hd
    cases h
    simp only [Bool.and_eq_true] at hd
    refine ⟨rfl, ?_⟩
    intro c hc
    simp only [List.mem_cons, List.not_mem_nil, or_false] at hc
    rcases hc with rfl | rfl | rfl | rfl <;> simp [hd.1, hd.2]
  · exact absurd h (by simp)

theorem tryYearHere_shape {s g : List Char} (h : tryYearHere s = some g) :
    YearStr g := by
  unfold tryYearHere at h
  split at h
  · next p hp =>
    split_ifs at h
    cases h
    exact fourDigAt_shape hp
  · exact absurd h (by simp)

theorem findYearBAux_shape {s g : List Char} (h : findYearBAux s = some g) :
    YearStr g := by
  induction s with
  | nil => exact absurd h (by simp [findYearBAux])
  | cons c rest ih =>
    unfold findYearBAux at h
    split at h
    · next g' hg' =>
      cases h
      split_ifs at hg'
      exact tryYearHere_shape hg'
    · exact ih h

theorem findYearB_shape {s g : List Char} (h : findYearB s = some g) :
    YearStr g := by
  unfold findYearB at h
  split at h
  · next hg => cases h; exact tryYearHere_shape hg
  · exact findYearBAux_shape h

theorem findD4_shape {s g : List Char} (h : findD4 s = some g) : YearStr g := by
  induction s with
  | nil => exact absurd h (by simp [findD4])
  | cons c rest ih =>
    unfold findD4 at h
    split at h
    · next p hp => cases h; exact (fourDigAt_shape hp)
    · exact ih h

theorem resolveYear_shape {p1 orig g : List Char}
    (h : resolveYear p1 orig = some g) : YearStr g := by
  unfold resolveYear at h
  split at h
  · next hg => cases h; exact findYearB_shape hg
  · split at h
    · next hg => cases h; exact findD4_shape hg
    · exact findD4_shape h

theorem toNatDigits_aux_lt (l : List Char) (hd : ∀ c ∈ l, isDig c)
    (acc : Nat) :
    l.foldl (fun n c => 10 * n + (c.toNat - 48)) acc <
      (acc + 1) * 10 ^ l.length := by
  induction l generalizing acc with
  | nil => simp
  | cons c rest ih =>
    have hc : isDig c := hd c (by simp)
    have hc9 : c.toNat - 48 ≤ 9 := by
      simp only [isDig, Bool.and_eq_true, decide_eq_true_eq] at hc
      omega
    have step := ih (fun x hx => hd x (by simp [hx])) (10 * acc + (c.toNat - 48))
    calc (c :: rest).foldl (fun n c => 10 * n + (c.toNat - 48)) acc
        = rest.foldl (fun n c => 10 * n + (c.toNat - 48))
            (10 * acc + (c.toNat - 48)) := by simp [List.foldl_cons]
      _ < (10 * acc + (c.toNat - 48) + 1) * 10 ^ rest.length := step
      _ ≤ ((acc + 1) * 10) * 10 ^ rest.length := by
          have : 10 * acc + (c.toNat - 48) + 1 ≤ (acc + 1) * 10 := by omega
          exact Nat.mul_le_mul_right _ this
      _ = (acc + 1) * 10 ^ (c :: rest).length := by
          rw [List.length_cons, Nat.pow_succ]
          ring

theorem yearStr_lt {g : List Char} (h : YearStr g) : toNatDigits g < 10000 := by
  have := toNatDigits_aux_lt g h.2 0
  rw [h.1] at this
  simpa [toNatDigits] using this

theorem mkRat_natCast_nonneg (n d : Nat) : (0 : ℚ) ≤ mkRat (Int.ofNat n) d := by
  rw [Rat.mkRat_eq_divInt, Rat.divInt_eq_div]
  refine div_nonneg ?_ (by positivity)
  have h0 : (0 : ℤ) ≤ Int.ofNat n := Int.ofNat_nonneg n
  exact_mod_cast h0

theorem parseDec_nonneg (s : List Char) : 0 ≤ parseDec s := by
  simp only [parseDec]
  exact mkRat_natCast_nonneg _ _

theorem parseAmount_nonneg {cell : List Char} {v : ℚ}
    (h : parseAmount cell = some v) : 0 ≤ v := by
  unfold parseAmount at h
  split_ifs at h
  · cases h; exact le_refl 0
  · split at h
    · cases h; exact parseDec_nonneg _
    · exact absurd h (by simp)

/-- Every record contributed by one row satisfies the invariant. -/
theorem processRow_emitOK {hp : Bool} {cells : List (List Char)} {hp2 : Bool}
    {o p : List DivRecord} (h : processRow hp cells = .ok (hp2, o, p)) :
    ∀ r ∈ o ++ p, EmitOK r := by
  match cells with
  | [] => simp only [processRow] at h; cases h; simp
  | [c] => simp only [processRow] at h; cases h; simp
  | c0 :: c1 :: rest =>
    simp only [processRow] at h
    split at h
    · cases h; simp
    · split at h
      · cases h; simp
      · next ys hys =>
        split at h
        · cases h; simp
        · next v hv =>
          split at h
          · exact absurd h (by simp)
          · next cd hcd =>
            have hrec : EmitOK ⟨cd, toNatDigits ys,
                classify (lower (workingPeriod (strip (nlToSpace (strip c0))))),
                v⟩ :=
              ⟨⟨ys, resolveYear_shape hys, rfl⟩, parseAmount_nonneg hv⟩
            split at h
            · split at h
              · split at h
                · cases h
                  intro r hr
                  simp only [List.append_nil, List.mem_singleton] at hr
                  subst hr; exact hrec
                · next pv hpv =>
                  cases h
                  intro r hr
                  simp only [List.singleton_append, List.mem_cons,
                    List.not_mem_nil, or_false] at hr
                  rcases hr with rfl | rfl
                  · exact hrec
                  · exact ⟨⟨ys, resolveYear_shape hys, rfl⟩,
                      parseAmount_nonneg hpv⟩
              · cases h
                intro r hr
                simp only [List.append_nil, List.mem_singleton] at hr
                subst hr; exact hrec
            · cases h
              intro r hr
              simp only [List.append_nil, List.mem_singleton] at hr
              subst hr; exact hrec

/-- Every record contributed by a table satisfies the invariant. -/
theorem processRows_emitOK {hp : Bool} {rows : List (List (List Char))}
    {o p : List DivRecord} (h : processRows hp rows = .ok (o, p)) :
    ∀ r ∈ o ++ p, EmitOK r := by
  induction rows generalizing hp o p with
  | nil => simp only [processRows] at h; cases h; simp
  | cons row rows ih =>
    simp only [processRows] at h
    split at h
    · exact absurd h (by simp)
    · next hp2 o1 p1 hrow =>
      split at h
      · exact absurd h (by simp)
      · next os ps hrest =>
        cases h
        intro r hr
        simp only [List.mem_append] at hr
        rcases hr with (h2 | h2) | (h2 | h2)
        · exact processRow_emitOK hrow r (by simp [h2])
        · exact ih hrest r (by simp [h2])
        · exact processRow_emitOK hrow r (by simp [h2])
        · exact ih hrest r (by simp [h2])

theorem mem_sortYearDesc {r : DivRecord} {l : List DivRecord} :
    r ∈ sortYearDesc l ↔ r ∈ l := List.mem_insertionSort yearGE

/-- Demonstration inputs: a minimal mapping, ticker and page. -/
def demoMap : List (List Char × List Char) := [("T".data, "t".data)]

/-- A header row carrying the table-detection keyword. -/
def hdrRowDemo : Row := ["Период выплаты".data, "дивиденд".data]

/-- A plain data row whose period cell has a year but no date. -/
def goodRowDemo : Row := ["2023".data, "5 руб.".data]

/-- Demonstration page: keyword-bearing header plus one plain data row. -/
def demoPage : List Table := [[hdrRowDemo, goodRowDemo]]

/-- C2: every record emitted by the extraction — returned ordinary
records and persisted preferred records alike — carries a year read from
a four-digit token (hence `0 ≤ year < 10000`; `int` of a four-digit
string) and a non-negative `dividend_value`; a data row whose period cell
resolves no year contributes zero records for both share classes; and
`closing_date` may be null, witnessed by a concrete extraction whose
record has no date. -/
theorem C2_record_invariants :
    (∀ ms tk page sc r,
        r ∈ (get_dividend_history ms tk page sc).result → EmitOK r) ∧
      (∀ ms tk page sc r,
        r ∈ prefSeq (get_dividend_history ms tk page sc) → EmitOK r) ∧
      (∀ hp c0 c1 rest,
        resolveYear (strip (nlToSpace (strip c0))) (strip c0) = none →
        processRow hp (c0 :: c1 :: rest) = .ok (hp || !rest.isEmpty, [], [])) ∧
      (get_dividend_history demoMap "T".data demoPage true).result =
        [⟨none, 2023, "full year".data, 5⟩] := by
  have hmain : ∀ ms tk page sc r,
      (r ∈ (get_dividend_history ms tk page sc).result ∨
        r ∈ prefSeq (get_dividend_history ms tk page sc)) → EmitOK r := by
    intro ms tk page sc r hr
    unfold get_dividend_history at hr
    split at hr
    · rcases hr with hr | hr <;> simp [prefSeq] at hr
    split_ifs at hr
    · rcases hr with hr | hr <;> simp [prefSeq] at hr
    split at hr
    · rcases hr with hr | hr <;> simp [prefSeq] at hr
    split at hr
    · rcases hr with hr | hr <;> simp [prefSeq] at hr
    next ords prefs hrows =>
      have hall := processRows_emitOK hrows
      rcases hr with hr | hr
      · split at hr
        · exact hall r (List.mem_append.mpr (Or.inl hr))
        · exact hall r (List.mem_append.mpr (Or.inl (mem_sortYearDesc.mp hr)))
      · simp only [prefSeq] at hr
        split_ifs at hr
        · exact hall r (List.mem_append.mpr (Or.inr hr))
        · exact absurd hr (List.not_mem_nil r)
        · exact hall r (List.mem_append.mpr (Or.inr (mem_sortYearDesc.mp hr)))
        · exact absurd hr (List.not_mem_nil r)
  refine ⟨fun ms tk page sc r hr => hmain ms tk page sc r (Or.inl hr),
    fun ms tk page sc r hr => hmain ms tk page sc r (Or.inr hr),
    ?_, by decide⟩
  intro hp c0 c1 rest hy
  simp only [processRow]
  split
  · rfl
  · rw [hy]

/-- Witness for C2: the invariant theorem applied to the concrete record
extracted from the demonstration page, and the year-drop rule applied to
a concrete year-free row. -/
theorem C2_witness :
    (⟨none, 2023, "full year".data, 5⟩ : DivRecord) ∈
      (get_dividend_history demoMap "T".data demoPage true).result ∧
    EmitOK ⟨none, 2023, "full year".data, 5⟩ ∧
    resolveYear (strip (nlToSpace (strip "нет года".data)))
      (strip "нет года".data) = none ∧
    processRow false ["нет года".data, "5 руб.".data] =
      .ok (false || !([] : List (List Char)).isEmpty, [], []) :=
  ⟨by decide,
    C2_record_invariants.1 demoMap "T".data demoPage true _ (by decide),
    by decide,
    C2_record_invariants.2.2.1 false "нет года".data "5 руб.".data []
      (by decide)⟩

/-! ### Claim C3 -/

/-- C3: on the period cell `закрытие реестра 9.07.2025 2024` the labeled
date is captured and zero-padded to `09.07.2025`, its year substring
`2025` is removed from the working text before the year search (so the
date's own year cannot be read as the payment year), and the row yields
`closing_date` 9 July 2025 (the `(day, month, year)` triple `(9, 7, 2025)`,
i.e. 2025-07-09) together with payment year `2024`. -/
theorem C3_date_year_separation :
    resolveClosing
        (strip (nlToSpace (strip "закрытие реестра 9.07.2025 2024".data))) =
      some "09.07.2025".data ∧
    workingPeriod
        (strip (nlToSpace (strip "закрытие реестра 9.07.2025 2024".data))) =
      "закрытие реестра 9.07. 2024".data ∧
    processRow false
        ["закрытие реестра 9.07.2025 2024".data, "10 руб.".data] =
      .ok (false, [⟨some (9, 7, 2025), 2024, "full year".data, 10⟩], []) := by
  decide

/-! ### Claim C4 -/

/-- C4 counterexample: the suffix-free amount cell `1234,5` does NOT
parse to `1234.5`.  The leftmost match of `\d{1,3}(?:\s\d{3})*(?:,\d+)?`
in `1234,5` is just `123` (the quantifier `\d{1,3}` cannot take all four
leading digits and the comma group cannot attach after `123` because a
digit follows), so the parsed value is `123`. -/
theorem C4_counterexample :
    parseAmount "1234,5".data = some 123 ∧
      parseAmount "1234,5".data ≠ some (mkRat 12345 10) := by
  decide

/-- C4 amended: `1 234,56 руб.` parses to `1234.56` (spaces removed,
comma turned into a decimal point), but the suffix-free `1234,5` parses
to `123`: the matched group is only `123`, because four consecutive
digits do not fit the thousands-separated pattern.  A cell with at most
three leading digits such as `234,5` does parse with its comma part, to
`234.5`. -/
theorem C4_amended_parse :
    parseAmount "1 234,56 руб.".data = some (mkRat 123456 100) ∧
      findAmountRub "1 234,56 руб.".data = some "1 234,56".data ∧
      normalizeNum "1 234,56".data = "1234.56".data ∧
      parseDec "1234.56".data = mkRat 123456 100 ∧
      parseAmount "1234,5".data = some 123 ∧
      findAmount "1234,5".data = some "123".data ∧
      parseAmount "234,5".data = some (mkRat 2345 10) := by
  decide

/-! ### Claim C5 -/

/-- A row whose period cell carries a pattern-valid but calendar-invalid
closing date (31 February). -/
def badRowC5 : Row :=
  ["закрытие реестра 31.02.2025 2024".data, "10 руб.".data]

/-- C5 is wrong about the code: a closing-date candidate that matches the
date pattern but is not a valid calendar date does not leave the row with
a null `closing_date` — the `pd.to_datetime` call at record construction
raises, the exception propagates to the handler at line 263, and the
whole extraction returns an empty DataFrame: the row is lost and so are
all other rows of the table.  The date `31.02.2025` matches the pattern
and resolves, the year `2024` resolves, the amount parses, yet the row
aborts everything; the same page without the bad row extracts fine.  The
unused helper `parse_russian_date` (whose documented contract is to
return `None` on failure, as the specification describes) would have
returned `none` here. -/
theorem C5_invalid_date_aborts :
    resolveClosing
        (strip (nlToSpace (strip "закрытие реестра 31.02.2025 2024".data))) =
      some "31.02.2025".data ∧
    resolveYear
        (strip (nlToSpace (strip "закрытие реестра 31.02.2025 2024".data)))
        (strip "закрытие реестра 31.02.2025 2024".data) = some "2024".data ∧
    parseAmount "10 руб.".data = some 10 ∧
    processRow false badRowC5 = .error () ∧
    get_dividend_history demoMap "T".data [[hdrRowDemo, badRowC5, goodRowDemo]]
        true = ⟨[], none, none⟩ ∧
    get_dividend_history demoMap "T".data [[hdrRowDemo, goodRowDemo]] true =
      ⟨[⟨none, 2023, "full year".data, 5⟩],
        some ("data/T.csv".data, [⟨none, 2023, "full year".data, 5⟩]),
        none⟩ ∧
    parse_russian_date "31.02.2025".data = none := by
  decide

/-! ### Claim C6 -/

/-- C6: a dividend cell containing the literal sentinel
`РЕШЕНИЕ ДИВИДЕНДЫ НЕ ВЫПЛАЧИВАТЬ` always parses to exactly `0.0` — never
a parse failure; and on any data row whose period resolves a year (and
whose closing date, if any, converts without raising) a sentinel ordinary
cell yields an emitted ordinary record with value `0`, and a sentinel
preferred cell yields an emitted preferred record with value `0`. -/
theorem C6_sentinel :
    (∀ cell, containsSub sentinel cell = true → parseAmount cell = some 0) ∧
    (∀ hp c0 c1 rest ys cd,
      ¬(strip c0 = hdrStr ∨ containsSub itogoStr (strip c0) = true) →
      resolveYear (strip (nlToSpace (strip c0))) (strip c0) = some ys →
      dateField (resolveClosing (strip (nlToSpace (strip c0)))) = .ok cd →
      containsSub sentinel (strip c1) = true →
      ∃ prefs,
        processRow hp (c0 :: c1 :: rest) =
          .ok (hp || !rest.isEmpty,
            [⟨cd, toNatDigits ys,
              classify (lower (workingPeriod (strip (nlToSpace (strip c0))))),
              0⟩],
            prefs)) ∧
    (∀ hp c0 c1 c2 rest2 ys cd v,
      ¬(strip c0 = hdrStr ∨ containsSub itogoStr (strip c0) = true) →
      resolveYear (strip (nlToSpace (strip c0))) (strip c0) = some ys →
      dateField (resolveClosing (strip (nlToSpace (strip c0)))) = .ok cd →
      parseAmount (strip c1) = some v →
      containsSub sentinel (strip c2) = true →
      processRow hp (c0 :: c1 :: c2 :: rest2) =
        .ok (true,
          [⟨cd, toNatDigits ys,
            classify (lower (workingPeriod (strip (nlToSpace (strip c0))))),
            v⟩],
          [⟨cd, toNatDigits ys,
            classify (lower (workingPeriod (strip (nlToSpace (strip c0))))),
            0⟩])) := by
  have hzero : ∀ cell, containsSub sentinel cell = true →
      parseAmount cell = some 0 := by
    intro cell h
    unfold parseAmount
    rw [if_pos h]
  refine ⟨hzero, ?_, ?_⟩
  · intro hp c0 c1 rest ys cd hg hys hcd hsent
    simp only [processRow, if_neg hg, hys, hzero (strip c1) hsent, hcd]
    match rest with
    | [] => exact ⟨[], by simp⟩
    | c2 :: rest2 =>
      simp only [List.isEmpty_cons, Bool.not_false, Bool.or_true, if_pos]
      match hpa2 : parseAmount (strip c2) with
      | none => exact ⟨[], by simp [hpa2]⟩
      | some pv =>
        exact ⟨[⟨cd, toNatDigits ys,
          classify (lower (workingPeriod (strip (nlToSpace (strip c0))))),
          pv⟩], by simp [hpa2]⟩
  · intro hp c0 c1 c2 rest2 ys cd v hg hys hcd hv hsent
    simp only [processRow, if_neg hg, hys, hv, hcd,
      hzero (strip c2) hsent, List.isEmpty_cons, Bool.not_false, Bool.or_true,
      if_pos]

/-- Witness for C6: the sentinel parses to `0` on a concrete cell, and
concrete two- and three-cell rows with sentinel cells emit the zero-value
records. -/
theorem C6_witness :
    parseAmount "РЕШЕНИЕ ДИВИДЕНДЫ НЕ ВЫПЛАЧИВАТЬ".data = some 0 ∧
    (∃ prefs,
      processRow false
          ["2024".data, "РЕШЕНИЕ ДИВИДЕНДЫ НЕ ВЫПЛАЧИВАТЬ".data] =
        .ok (false || !([] : List (List Char)).isEmpty,
          [⟨none, toNatDigits "2024".data,
            classify (lower (workingPeriod (strip (nlToSpace
              (strip "2024".data))))), 0⟩],
          prefs)) ∧
    processRow false
        ["2024".data, "5 руб.".data,
          "РЕШЕНИЕ ДИВИДЕНДЫ НЕ ВЫПЛАЧИВАТЬ".data] =
      .ok (true,
        [⟨none, toNatDigits "2024".data,
          classify (lower (workingPeriod (strip (nlToSpace
            (strip "2024".data))))), 5⟩],
        [⟨none, toNatDigits "2024".data,
          classify (lower (workingPeriod (strip (nlToSpace
            (strip "2024".data))))), 0⟩]) :=
  ⟨C6_sentinel.1 _ (by decide),
    C6_sentinel.2.1 false "2024".data
      "РЕШЕНИЕ ДИВИДЕНДЫ НЕ ВЫПЛАЧИВАТЬ".data [] "2024".data none
      (by decide) (by decide) (by decide) (by decide),
    C6_sentinel.2.2 false "2024".data "5 руб.".data
      "РЕШЕНИЕ ДИВИДЕНДЫ НЕ ВЫПЛАЧИВАТЬ".data [] "2024".data none 5
      (by decide) (by decide) (by decide) (by decide) (by decide)⟩

/-! ### Claim C7 -/

/-- C7: the period-type classifier tests the keyword groups in the fixed
order half-year, nine-months, six-months, three-months, first match wins,
defaulting to `full year`; in particular `I полугодие 2023` classifies as
`half year`, `9 месяцев 2023` as `9 months`, and a bare `2023` as
`full year`. -/
theorem C7_period_type :
    classify (lower "I полугодие 2023".data) = "half year".data ∧
    classify (lower "9 месяцев 2023".data) = "9 months".data ∧
    classify (lower "2023".data) = "full year".data ∧
    (∀ pl, halfCond pl = true → classify pl = "half year".data) ∧
    (∀ pl, halfCond pl = false → nineCond pl = true →
      classify pl = "9 months".data) ∧
    (∀ pl, halfCond pl = false → nineCond pl = false → sixCond pl = true →
      classify pl = "6 months".data) ∧
    (∀ pl, halfCond pl = false → nineCond pl = false → sixCond pl = false →
      threeCond pl = true → classify pl = "3 months".data) ∧
    (∀ pl, halfCond pl = false → nineCond pl = false → sixCond pl = false →
      threeCond pl = false → classify pl = "full year".data) := by
  refine ⟨by decide, by decide, by decide, ?_, ?_, ?_, ?_, ?_⟩ <;>
    · intro pl
      intros
      simp [classify, *]

/-- Witness for C7: the priority rules applied at concrete texts, with a
half-year keyword overriding a nine-months keyword present in the same
text, and so on down the chain. -/
theorem C7_witness :
    classify "1 полугодие 9 мес".data = "half year".data ∧
    classify "9 мес 3 мес".data = "9 months".data ∧
    classify "6 мес 3 мес".data = "6 months".data ∧
    classify "3 мес".data = "3 months".data ∧
    classify "январь".data = "full year".data :=
  ⟨C7_period_type.2.2.2.1 _ (by decide),
    C7_period_type.2.2.2.2.1 _ (by decide) (by decide),
    C7_period_type.2.2.2.2.2.1 _ (by decide) (by decide) (by decide),
    C7_period_type.2.2.2.2.2.2.1 _ (by decide) (by decide) (by decide)
      (by decide),
    C7_period_type.2.2.2.2.2.2.2 _ (by decide) (by decide) (by decide)
      (by decide)⟩

/-! ### Claim C1 -/

/-- C1 counterexample: a three-cell data row with a resolvable year, an
unparseable ordinary cell and a parseable preferred cell (`7 руб.`)
produces NO records at all — the ordinary parse failure `continue`s past
the preferred column, so the preferred record claimed by the
specification is not emitted. -/
theorem C1_counterexample :
    processRow false ["2024".data, "нет данных".data, "7 руб.".data] =
      .ok (true, [], []) ∧
    parseAmount (strip "нет данных".data) = none ∧
    parseAmount (strip "7 руб.".data) = some 7 ∧
    resolveYear (strip (nlToSpace (strip "2024".data)))
      (strip "2024".data) = some "2024".data := by
  decide

/-- C1 amended: on a data row with both share-class cells and a resolved
year, the two amount parses are NOT independent.  An unparseable ordinary
amount discards the whole row — ordinary and preferred records alike —
while an unparseable preferred amount discards only the preferred record
and the ordinary record is still emitted. -/
theorem C1_amended (hp : Bool) (c0 c1 c2 : List Char)
    (rest : List (List Char))
    (hg : ¬(strip c0 = hdrStr ∨ containsSub itogoStr (strip c0) = true))
    (ys : List Char)
    (hys : resolveYear (strip (nlToSpace (strip c0))) (strip c0) = some ys) :
    (parseAmount (strip c1) = none →
      processRow hp (c0 :: c1 :: c2 :: rest) = .ok (true, [], [])) ∧
    (∀ v cd, parseAmount (strip c1) = some v →
      dateField (resolveClosing (strip (nlToSpace (strip c0)))) = .ok cd →
      parseAmount (strip c2) = none →
      processRow hp (c0 :: c1 :: c2 :: rest) =
        .ok (true,
          [⟨cd, toNatDigits ys,
            classify (lower (workingPeriod (strip (nlToSpace (strip c0))))),
            v⟩],
          [])) := by
  constructor
  · intro hnone
    simp [processRow, if_neg hg, hys, hnone]
  · intro v cd hv hcd hnone2
    simp [processRow, if_neg hg, hys, hv, hcd, hnone2]

/-- Witness for C1 amended: both directions at concrete rows — ordinary
failure wipes the row, preferred failure keeps the ordinary record. -/
theorem C1_amended_witness :
    (processRow false ["2024".data, "нет данных".data, "7 руб.".data] =
      .ok (true, [], [])) ∧
    (processRow false ["2024".data, "7 руб.".data, "нет данных".data] =
      .ok (true,
        [⟨none, toNatDigits "2024".data,
          classify (lower (workingPeriod (strip (nlToSpace
            (strip "2024".data))))), 7⟩],
        [])) :=
  ⟨(C1_amended false "2024".data "нет данных".data "7 руб.".data []
      (by decide) "2024".data (by decide)).1 (by decide),
    (C1_amended false "2024".data "7 руб.".data "нет данных".data []
      (by decide) "2024".data (by decide)).2 7 none (by decide) (by decide)
      (by decide)⟩

/-! ### Claim C8 -/

/-- C8 counterexample: the no-matching-table page and the
table-with-zero-valid-rows page produce IDENTICAL caller-visible
outcomes — an empty result with no CSV written — so the two failure modes
are not reported as distinct structured outcomes.  (In the source both
paths merely print a message; the `ValueError` of line 103 is swallowed
by the handler at line 263, which returns the same empty DataFrame that
the empty-table path returns.) -/
theorem C8_counterexample :
    findTable ([] : List Table) = none ∧
    findTable [[hdrRowDemo]] = some [hdrRowDemo] ∧
    processRows false [hdrRowDemo] = .ok ([], []) ∧
    get_dividend_history demoMap "T".data [] true =
      get_dividend_history demoMap "T".data [[hdrRowDemo]] true := by
  decide

/-- C8 amended: both failure modes collapse to one outcome.  Whenever no
table matches the keyword heuristic, and likewise whenever a table is
found but row processing yields zero records for both classes, the
extraction returns the empty outcome `⟨[], none, none⟩`; the caller
cannot structurally distinguish the two cases (only printed text
differs). -/
theorem C8_amended (ms : List (List Char × List Char)) (tk : List Char)
    (page : List Table) (sc : Bool) :
    (findTable page = none →
      get_dividend_history ms tk page sc = ⟨[], none, none⟩) ∧
    (∀ tb, findTable page = some tb → processRows false tb = .ok ([], []) →
      get_dividend_history ms tk page sc = ⟨[], none, none⟩) := by
  constructor
  · intro h
    simp only [get_dividend_history, h]
    split
    · rfl
    · split_ifs <;> rfl
  · intro tb htb hrows
    simp only [get_dividend_history, htb, hrows]
    split
    · rfl
    · split_ifs <;> simp_all

/-- Witness for C8 amended: both parts applied at the concrete pages of
the counterexample scenario. -/
theorem C8_amended_witness :
    get_dividend_history demoMap "T".data [] true = ⟨[], none, none⟩ ∧
    get_dividend_history demoMap "T".data [[hdrRowDemo]] true =
      ⟨[], none, none⟩ :=
  ⟨(C8_amended demoMap "T".data [] true).1 (by decide),
    (C8_amended demoMap "T".data [[hdrRowDemo]] true).2 [hdrRowDemo]
      (by decide) (by decide)⟩

end RusDiv




